import Mathlib

/-!
Shallow embedding of the editor state & interaction engine of
`react-markdown-editor-lite` (CodeMirror fork), from `src/editor/index.tsx`.

Strings are modelled as Lean `String` (sequences of characters); DOM scroll
measurements are modelled as exact rationals; promise settlement is collapsed
to its final value (the code is single-threaded and the claims below do not
depend on interleavings).  React refs are modelled as `Option` fields of the
editor state; a ref whose attachment site does not exist in `render` stays
`none` forever, exactly as `current` stays `null` in the running component.
-/

namespace MdEditorLite

/-- Newline normalization `value.replace(/↵/g, '\n')` (editor/index.tsx lines
126, 173, 578): every occurrence of the line-separator sentinel `↵` (U+21B5)
is replaced by a plain newline; a single-character global replace is exactly a
character map. -/
def normalizeText (s : String) : String :=
  ⟨s.data.map fun c => if c = '↵' then '\n' else c⟩

/-- JavaScript `s.slice(a, b)` for non-negative indices: both indices are
clamped to the length of the string and the characters in `[a, b)` are
returned (empty when `a ≥ b`). -/
def jsSlice (s : String) (a b : Nat) : String :=
  let n := s.data.length
  ⟨((s.data.drop (min a n)).take (min b n - min a n))⟩

/-- Index of the first occurrence of `p` as a contiguous sublist of `l`
(JavaScript `String.prototype.indexOf`); `none` when absent. -/
def listIndexOfSub (l p : List Char) : Option Nat :=
  match l with
  | [] => if p = [] then some 0 else none
  | _ :: rest => if p.isPrefixOf l then some 0 else (listIndexOfSub rest p).map (· + 1)

/-- ECMAScript GetSubstitution for a string pattern (no capture groups):
scanning the replacement text, `$$` yields `$`, `$&` the matched pattern,
`$` followed by a backquote the portion of the subject before the match, and
`$'` the portion after it; any other `$` (including `$n`, since a string
pattern has no captures, and `$<`, since named captures are undefined) is
passed through literally, as is a lone final `$`. -/
def getSubstitution (matched before after : List Char) : List Char → List Char
  | [] => []
  | [c] => [c]
  | c :: c2 :: rest =>
    if c = '$' then
      if c2 = '$' then '$' :: getSubstitution matched before after rest
      else if c2 = '&' then matched ++ getSubstitution matched before after rest
      else if c2 = '`' then before ++ getSubstitution matched before after rest
      else if c2 = '\'' then after ++ getSubstitution matched before after rest
      else c :: getSubstitution matched before after (c2 :: rest)
    else c :: getSubstitution matched before after (c2 :: rest)

/-- JavaScript `s.replace(pat, repl)` with string pattern and string
replacement: find the first occurrence of `pat` in `s` (`s` is returned
unchanged when `pat` is absent) and splice in the replacement text after
`$`-escape substitution (`GetSubstitution` applied with the matched pattern,
the text before the match and the text after it). -/
def jsReplaceFirst (s pat repl : String) : String :=
  match listIndexOfSub s.data pat.data with
  | none => s
  | some i =>
    let before := s.data.take i
    let after := s.data.drop (i + pat.data.length)
    ⟨before ++ getSubstitution pat.data before after repl.data ++ after⟩

/-- Spec-side comparison function, following the spec's words for the
placeholder resolution step ("performs a literal substring replace of the
first occurrence of `token` in the then-current text with the resolved
value"): the replacement string is spliced in verbatim, with no `$`-escape
substitution. -/
def literalReplaceFirst (s pat repl : String) : String :=
  match listIndexOfSub s.data pat.data with
  | none => s
  | some i => ⟨s.data.take i ++ repl.data ++ s.data.drop (i + pat.data.length)⟩

/-- The two panes, `'md'` (edit) and `'html'` (preview). -/
inductive Pane where
  | md
  | html
deriving DecidableEq

/-- Entries of the `syncScrollMode` configuration array. -/
inductive SyncMode where
  | rightFollowLeft
  | leftFollowRight
deriving DecidableEq

/-- The `onChangeTrigger` configuration (`'both' | 'beforeRender' | 'afterRender'`). -/
inductive OnChangeTrigger where
  | both
  | beforeRender
  | afterRender
deriving DecidableEq

/-- Selection record (`src/share/var` `Selection`): offsets into the text plus
the selected substring. -/
structure Selection where
  start : Nat
  endPos : Nat
  text : String
deriving DecidableEq

/-- Modelled from the spec: `initialSelection` lives in `src/share/var`, which
is not among the provided sources; spec §3 fixes a selection as
`{start, end, text}` with offsets into the text, and `getSelection` falls back
to it when no text node is attached, so the empty default selection is
`{0, 0, ""}`. -/
def initialSelection : Selection :=
  { start := 0, endPos := 0, text := "" }

/-- The markdown `<textarea>` as `nodeMdText.current` would expose it:
value, selection offsets and a measurable scroll height. -/
structure Textarea where
  value : String
  selectionStart : Nat
  selectionEnd : Nat
  scrollHeight : ℚ
deriving DecidableEq

/-- DOM `setSelectionRange(start, end)`: both offsets are clamped to the
length of the value and the start is clamped to the end. -/
def Textarea.setSelectionRange (ta : Textarea) (s e : Nat) : Textarea :=
  let n := ta.value.length
  let e' := min e n
  { ta with selectionStart := min (min s n) e', selectionEnd := e' }

/-- The preview wrapper `<div>` (`nodeMdPreviewWrapper.current`): scrollable
height and current scroll offset. -/
structure PreviewPane where
  scrollHeight : ℚ
  scrollTop : ℚ
deriving DecidableEq

/-- The mounted CodeMirror instance (`nodeEditor`): its document scroll state
and whether `display.cursorDiv` is attached (truthy for a mounted editor). -/
structure CMEditor where
  scrollTop : ℚ
  scrollHeight : ℚ
  cursorDivAttached : Bool
deriving DecidableEq

/-- Host-visible effects: `onChange` prop invocations and `emitter.emit`
calls, in emission order. -/
inductive Event where
  | onChangeCalled (text html : String)
  | changeEmit (value : String) (programmatic : Bool)
  | fullscreenEmit (b : Bool)
  | scrollEmit (pane : Pane)
deriving DecidableEq

/-- Configuration slice used by the embedded operations: the merged config's
`onChangeTrigger` and `syncScrollMode`, plus the `onChange` and `renderHTML`
props (the latter collapsed to its settled value: a plain value, a thenable
and a zero-argument function all settle to one output string). -/
structure Config where
  onChangeTrigger : OnChangeTrigger
  hasOnChange : Bool
  renderHTML : Option (String → String)
  syncScrollMode : List SyncMode

/-- Editor instance state: React state (`text`, `html`, `fullScreen`),
instance fields (`hasContentChanged`, `scrollScale`, `isSyncingScroll`,
`shouldSyncScroll`, `keyboardListeners`) and the refs.  `nodeMdText` is
created in the constructor but its only attachment site — the `<textarea>`
JSX in `render` — is commented out (index.tsx lines 846-863), so it is never
`some` in any reachable state.  `pendingSelection` records a `setTimeout`
scheduled selection write and `pendingFrames` the queue of
`requestAnimationFrame` callbacks (each capturing the pane type it was
scheduled for).  Keyboard listeners are compared by object reference, so a
listener is modelled by a numeric identity. -/
structure EditorState where
  text : String
  html : String
  fullScreen : Bool
  nodeMdText : Option Textarea
  nodeMdPreviewWrapper : Option PreviewPane
  nodeEditor : Option CMEditor
  keyboardListeners : List Nat
  hasContentChanged : Bool
  scrollScale : ℚ
  isSyncingScroll : Bool
  shouldSyncScroll : Pane
  pendingSelection : Option (Nat × Nat)
  pendingFrames : List Pane
deriving DecidableEq

/-- Constructor state (index.tsx lines 119-153): the initial text is
`(value || defaultValue || '').replace(/↵/g, '\n')`, `html` is `''`,
`fullScreen` is `false`, `hasContentChanged` starts `true` (line 114),
`scrollScale` is `1`, `isSyncingScroll` is `false` and `shouldSyncScroll`
is `'md'` (lines 249-251); all refs start unattached. -/
def initState (v : String) : EditorState :=
  { text := normalizeText v
    html := ""
    fullScreen := false
    nodeMdText := none
    nodeMdPreviewWrapper := none
    nodeEditor := none
    keyboardListeners := []
    hasContentChanged := true
    scrollScale := 1
    isSyncingScroll := false
    shouldSyncScroll := Pane.md
    pendingSelection := none
    pendingFrames := [] }

/-- `getMdValue()` (lines 613-615): returns the current text. -/
def getMdValue (st : EditorState) : String :=
  st.text

/-- `getHtmlValue()` (lines 621-631), with `html` modelled in its string
shape. -/
def getHtmlValue (st : EditorState) : String :=
  st.html

/-- Render outcome of `renderHTML` (lines 290-304): `missingLogged` is the
branch that logs `renderHTML props is required!` and returns the immediately
resolved `Promise.resolve()`; `rendered` is any of the three supplied-function
branches, whose settled value is stored via `setHtml`. -/
inductive RenderOutcome where
  | missingLogged
  | rendered
deriving DecidableEq

/-- `renderHTML(markdownText)` (lines 290-304): when no render function prop
is supplied, log and resolve immediately without touching `html`; otherwise
store the settled output. -/
def renderHTML (cfg : Config) (st : EditorState) (markdownText : String) :
    EditorState × RenderOutcome :=
  match cfg.renderHTML with
  | none => (st, RenderOutcome.missingLogged)
  | some f => ({ st with html := f markdownText }, RenderOutcome.rendered)

/-- The `onChange` call before rendering (lines 583-585): fires when the prop
is set and `onChangeTrigger` is `'both'` or `'beforeRender'`, passing the new
text with the not-yet-updated html. -/
def beforeChangeEvents (cfg : Config) (newText oldHtml : String) : List Event :=
  if cfg.hasOnChange = true ∧
      (cfg.onChangeTrigger = OnChangeTrigger.both ∨
        cfg.onChangeTrigger = OnChangeTrigger.beforeRender) then
    [Event.onChangeCalled newText oldHtml]
  else []

/-- The `onChange` call after rendering (lines 594-606): registered when
`onChangeTrigger` is `'both'` or `'afterRender'` and fired once the render
promise settles, with the settled state's text and html. -/
def afterChangeEvents (cfg : Config) (settled : EditorState) : List Event :=
  if (cfg.onChangeTrigger = OnChangeTrigger.both ∨
        cfg.onChangeTrigger = OnChangeTrigger.afterRender) ∧
      cfg.hasOnChange = true then
    [Event.onChangeCalled settled.text settled.html]
  else []

/-- `setText(value, event?, newSelection?)` (lines 572-607).  Note that the
no-op guard on line 579 compares the current text against the RAW `value`,
not against the normalized `text` computed on line 578, and that the internal
`EVENT_CHANGE` emission on line 586 also passes the raw `value`.
`eventPresent` models `typeof event !== 'undefined'`. -/
def setText (cfg : Config) (st : EditorState) (value : String)
    (eventPresent : Bool) (newSelection : Option (Nat × Nat)) :
    EditorState × List Event :=
  let text := normalizeText value
  if st.text = value then (st, [])
  else
    let st1 := { st with text := text }
    let st2 := match newSelection with
      | some sel => { st1 with pendingSelection := some sel }
      | none => st1
    let st3 := { st2 with hasContentChanged := true }
    let st4 := (renderHTML cfg st3 text).1
    (st4,
      beforeChangeEvents cfg text st.html ++
        Event.changeEmit value (!eventPresent) :: afterChangeEvents cfg st4)

/-- Externally driven text update (`componentDidUpdate`, lines 167-180): when
the controlled `value` prop differs from the state text, normalize it and,
on genuine divergence, store it and re-render. -/
def applyExternalValue (cfg : Config) (st : EditorState) (value : String) :
    EditorState :=
  if value = st.text then st
  else
    let v := normalizeText value
    if st.text = v then st
    else (renderHTML cfg { st with text := v } v).1

/-- Whether an event is the internal `EVENT_CHANGE` emission. -/
def isChangeEmit : Event → Bool
  | Event.changeEmit _ _ => true
  | _ => false

/-- Number of internal change notifications in an event trace. -/
def countChange (evs : List Event) : Nat :=
  evs.countP isChangeEmit

/-- `getSelection()` (lines 412-425): reads the selection offsets and the
selected slice from `nodeMdText.current`, falling back to `initialSelection`
when the node is absent. -/
def getSelection (st : EditorState) : Selection :=
  match st.nodeMdText with
  | none => initialSelection
  | some ta =>
    { start := ta.selectionStart
      endPos := ta.selectionEnd
      text := jsSlice ta.value ta.selectionStart ta.selectionEnd }

/-- `setSelection(to)` (lines 431-436): calls `setSelectionRange` and focuses
the node when it is attached, otherwise does nothing. -/
def setSelection (st : EditorState) (s e : Nat) : EditorState :=
  match st.nodeMdText with
  | none => st
  | some ta => { st with nodeMdText := some (ta.setSelectionRange s e) }

/-- `insertText(value, replaceSelected, newSelection?)` (lines 546-565):
splits the current text around the selection and delegates to `setText` with
a shifted selection, defaulting to a zero-width cursor at the insertion
point. -/
def insertText (cfg : Config) (st : EditorState) (value : String)
    (replaceSelected : Bool) (newSelection : Option (Nat × Nat)) :
    EditorState × List Event :=
  let selection := getSelection st
  let beforeContent := jsSlice st.text 0 selection.start
  let afterContent :=
    jsSlice st.text (if replaceSelected then selection.endPos else selection.start)
      st.text.length
  setText cfg st (beforeContent ++ value ++ afterContent) false
    (some (match newSelection with
      | some ns => (ns.1 + beforeContent.length, ns.2 + beforeContent.length)
      | none => (selection.start, selection.start)))

/-- The immediate half of `insertPlaceholder(placeholder, wait)` (lines
532-533): inserts the placeholder replacing the current selection. -/
def insertPlaceholder (cfg : Config) (st : EditorState) (placeholder : String) :
    EditorState × List Event :=
  insertText cfg st placeholder true none

/-- The resolution handler of `insertPlaceholder` (lines 534-537): when the
promise settles with `str`, replace the first occurrence of the placeholder in
the then-current text and pass the result to `setText`.  The handler is a
total function: an absent placeholder makes the replace the identity. -/
def resolvePlaceholder (cfg : Config) (st : EditorState)
    (placeholder str : String) : EditorState × List Event :=
  setText cfg st (jsReplaceFirst (getMdValue st) placeholder str) false none

/-- Sync direction required for pane `type` (line 265): `'rightFollowLeft'`
for the edit pane, `'leftFollowRight'` for the preview pane. -/
def syncDirection : Pane → SyncMode
  | Pane.md => SyncMode.rightFollowLeft
  | Pane.html => SyncMode.leftFollowRight

/-- The scale recomputation step of `handleSyncScroll` (lines 268-272): only
when content changed AND both `nodeMdText.current` and
`nodeMdPreviewWrapper.current` are attached, set
`scrollScale = nodeMdText.scrollHeight / preview.scrollHeight` and clear the
dirty flag.  Since `nodeMdText` is never attached, this branch is dead in the
running component. -/
def recomputeScale (st : EditorState) : EditorState :=
  match st.hasContentChanged, st.nodeMdText, st.nodeMdPreviewWrapper with
  | true, some ta, some pv =>
    { st with scrollScale := ta.scrollHeight / pv.scrollHeight
              hasContentChanged := false }
  | _, _, _ => st

/-- `handleSyncScroll(type, e)` (lines 253-288), the synchronous part: ignore
events from the pane that is not the active source; emit the scroll event;
stop when sync is disabled for this direction; recompute the scale; schedule
one animation-frame callback unless one is already pending (guarded by
`isSyncingScroll`).  A scheduled callback is recorded in `pendingFrames`
together with the pane type its closure captured. -/
def handleSyncScroll (cfg : Config) (st : EditorState) (type : Pane) :
    EditorState × List Event :=
  if type ≠ st.shouldSyncScroll then (st, [])
  else if syncDirection type ∉ cfg.syncScrollMode then (st, [Event.scrollEmit type])
  else
    let st1 := recomputeScale st
    if st1.isSyncingScroll then (st1, [Event.scrollEmit type])
    else
      ({ st1 with isSyncingScroll := true
                  pendingFrames := st1.pendingFrames ++ [type] },
        [Event.scrollEmit type])

/-- Running the next pending `requestAnimationFrame` callback (lines 275-286):
when `nodeEditor.display.cursorDiv` and the preview wrapper are present, write
the corrective offset to the other pane (divide by the scale left-to-right,
multiply right-to-left), then clear `isSyncingScroll`.  Callbacks run in FIFO
order. -/
def runFrame (st : EditorState) : EditorState :=
  match st.pendingFrames with
  | [] => st
  | type :: rest =>
    let st1 :=
      match st.nodeEditor, st.nodeMdPreviewWrapper with
      | some ed, some pv =>
        if ed.cursorDivAttached then
          match type with
          | Pane.md =>
            let pv' := { pv with scrollTop := ed.scrollTop / st.scrollScale }
            { st with nodeMdPreviewWrapper := some pv' }
          | Pane.html =>
            let ed' := { ed with scrollTop := pv.scrollTop * st.scrollScale }
            { st with nodeEditor := some ed' }
        else st
      | _, _ => st
    { st1 with isSyncingScroll := false, pendingFrames := rest }

/-- A registered plugin: the component (identified by reference, modelled as a
numeric identity) and its configuration. -/
structure Plugin where
  comp : Nat
  config : Nat
deriving DecidableEq

/-- `Editor.use(comp, config)` (lines 67-76): scan the static registry for the
first entry with the same component; replace it in place
(`splice(i, 1, {comp, config})`) and return, else append (`push`). -/
def use : List Plugin → Nat → Nat → List Plugin
  | [], comp, config => [⟨comp, config⟩]
  | p :: rest, comp, config =>
    if p.comp = comp then ⟨comp, config⟩ :: rest
    else p :: use rest comp config

/-- `fullScreen(enable)` (lines 752-763): change the flag and emit one
`EVENT_FULL_SCREEN` only when the flag differs. -/
def fullScreen (st : EditorState) (enable : Bool) : EditorState × List Event :=
  if st.fullScreen ≠ enable then
    ({ st with fullScreen := enable }, [Event.fullscreenEmit enable])
  else (st, [])

/-- `isFullScreen()` (lines 769-771). -/
def isFullScreen (st : EditorState) : Bool :=
  st.fullScreen

/-- `onKeyboard(data)` for a single listener (lines 642-650): push only when
the listener is not already present (`includes` is reference equality); an
array argument just folds this over its elements. -/
def onKeyboard (st : EditorState) (d : Nat) : EditorState :=
  if d ∈ st.keyboardListeners then st
  else { st with keyboardListeners := st.keyboardListeners ++ [d] }

/-- `indexOf` plus `splice(index, 1)` (lines 661-664): remove the first
occurrence, if any. -/
def eraseFirstListener : List Nat → Nat → List Nat
  | [], _ => []
  | x :: rest, d => if x = d then rest else x :: eraseFirstListener rest d

/-- `offKeyboard(data)` for a single listener (lines 656-665). -/
def offKeyboard (st : EditorState) (d : Nat) : EditorState :=
  { st with keyboardListeners := eraseFirstListener st.keyboardListeners d }

/-- A concrete configuration: default `onChangeTrigger`, no `onChange` prop,
a constant render function, scroll sync disabled. -/
def cfg0 : Config :=
  { onChangeTrigger := OnChangeTrigger.both
    hasOnChange := false
    renderHTML := some (fun _ => "")
    syncScrollMode := [] }

/-- Normalized text never contains the sentinel character. -/
theorem noSentinel_normalizeText (s : String) : '↵' ∉ (normalizeText s).data := by
  simp only [normalizeText, List.mem_map, not_exists]
  rintro c ⟨-, hc⟩
  by_cases h : c = '↵' <;> simp [h] at hc

/-- Normalization fixes any sentinel-free string. -/
theorem normalizeText_eq_self {s : String} (h : '↵' ∉ s.data) :
    normalizeText s = s := by
  have key : ∀ l : List Char, '↵' ∉ l →
      l.map (fun c => if c = '↵' then '\n' else c) = l := by
    intro l hl
    induction l with
    | nil => rfl
    | cons c rest ih =>
      simp only [List.mem_cons, not_or] at hl
      have hc : c ≠ '↵' := fun he => hl.1 he.symm
      simp [hc, ih hl.2]
  simp [normalizeText, key s.data h]

/-- `renderHTML` never touches the stored text. -/
theorem renderHTML_text (cfg : Config) (st : EditorState) (t : String) :
    ((renderHTML cfg st t).1).text = st.text := by
  rcases h : cfg.renderHTML with _ | f <;> simp [renderHTML, h]

/-- The no-op guard of `setText`: it fires exactly when the RAW input equals
the current text. -/
theorem setText_of_eq {cfg : Config} {st : EditorState} {value : String}
    {ev : Bool} {sel : Option (Nat × Nat)} (h : st.text = value) :
    setText cfg st value ev sel = (st, []) := by
  simp [setText, h]

/-- When the guard does not fire, the stored text becomes the normalized
input. -/
theorem setText_text_of_ne {cfg : Config} {st : EditorState} {value : String}
    {ev : Bool} {sel : Option (Nat × Nat)} (h : ¬st.text = value) :
    ((setText cfg st value ev sel).1).text = normalizeText value := by
  rcases hr : cfg.renderHTML with _ | f <;> rcases sel with _ | s <;>
    simp [setText, h, renderHTML, hr]

/-- A non-no-op `setText` emits exactly one internal change notification. -/
theorem countChange_setText {cfg : Config} {st : EditorState} {value : String}
    {ev : Bool} {sel : Option (Nat × Nat)} (h : ¬st.text = value) :
    countChange (setText cfg st value ev sel).2 = 1 := by
  rcases sel with _ | s <;>
    simp [setText, h, countChange, beforeChangeEvents, afterChangeEvents,
      List.countP_append, List.countP_cons, isChangeEmit] <;>
    split_ifs <;> simp [isChangeEmit]

/-- C1 counterexample: the claim fails on a sentinel-containing input.  With
current text `"a\nb"` (the constructor's normalization of `"a↵b"`), the input
`x = "a↵b"` normalizes to the current text, yet `setText x` does NOT return
immediately — it emits a change notification, and a second identical call
emits another one (two notifications for two calls, where the claim demands
exactly one), because the guard on line 579 compares the raw `value` instead
of the normalized `text`. -/
theorem setText_sentinel_counterexample :
    normalizeText "a↵b" = (initState "a↵b").text ∧
    countChange (setText cfg0 (initState "a↵b") "a↵b" false none).2 = 1 ∧
    countChange (setText cfg0
      (setText cfg0 (initState "a↵b") "a↵b" false none).1 "a↵b" false none).2 = 1 := by
  refine ⟨rfl, ?_, ?_⟩ <;> decide

/-- C1 amended: the no-op guard compares the RAW input with the current text,
so `setText x` is a no-op exactly when `x` equals the stored text verbatim;
consequently, for inputs free of the sentinel character (where raw and
normalized input coincide) the idempotence guarantee holds: a first effective
call stores `x` and emits exactly one change notification, and a second
call with the same `x` returns immediately with no state change and no
notifications. -/
theorem setText_idempotent_amended (cfg : Config) (st : EditorState)
    (x : String) (ev : Bool) (hx : '↵' ∉ x.data) :
    (st.text = x → setText cfg st x ev none = (st, [])) ∧
    (st.text ≠ x →
      ((setText cfg st x ev none).1).text = x ∧
      countChange (setText cfg st x ev none).2 = 1 ∧
      setText cfg (setText cfg st x ev none).1 x ev none =
        ((setText cfg st x ev none).1, [])) := by
  constructor
  · intro h
    exact setText_of_eq h
  · intro h
    have ht : ((setText cfg st x ev none).1).text = x := by
      rw [setText_text_of_ne h, normalizeText_eq_self hx]
    exact ⟨ht, countChange_setText h, setText_of_eq ht⟩

/-- Witness for the amended C1 claim at a concrete input. -/
theorem setText_idempotent_amended_witness :
    ((initState "").text = "hello" →
      setText cfg0 (initState "") "hello" false none = (initState "", [])) ∧
    ((initState "").text ≠ "hello" →
      ((setText cfg0 (initState "") "hello" false none).1).text = "hello" ∧
      countChange (setText cfg0 (initState "") "hello" false none).2 = 1 ∧
      setText cfg0 (setText cfg0 (initState "") "hello" false none).1
          "hello" false none =
        ((setText cfg0 (initState "") "hello" false none).1, [])) :=
  setText_idempotent_amended cfg0 (initState "") "hello" false (by decide)

/-- C6: when no `renderHTML` prop is supplied, `renderHTML(text)` logs the
diagnostic, returns the immediately resolved promise, and leaves the whole
state — in particular the stored rendered output — unchanged, for every input
text and every state. -/
theorem renderHTML_missing_graceful (cfg : Config) (st : EditorState)
    (t : String) (h : cfg.renderHTML = none) :
    MdEditorLite.renderHTML cfg st t = (st, RenderOutcome.missingLogged) := by
  simp [MdEditorLite.renderHTML, h]

/-- Witness for C6 at a concrete configuration and state. -/
theorem renderHTML_missing_graceful_witness :
    MdEditorLite.renderHTML
        { onChangeTrigger := OnChangeTrigger.both
          hasOnChange := false
          renderHTML := none
          syncScrollMode := [] } (initState "x") "abc" =
      (initState "x", RenderOutcome.missingLogged) :=
  renderHTML_missing_graceful _ (initState "x") "abc" rfl

/-- C9: `fullScreen(b)` is a no-op (no state change, no `'fullscreen'` event)
when `isFullScreen()` already returns `b`; otherwise it sets the flag to `b`
and emits exactly one `'fullscreen'` event carrying `b`. -/
theorem fullScreen_frame_effect (st : EditorState) (b : Bool) :
    (isFullScreen st = b → fullScreen st b = (st, [])) ∧
    (isFullScreen st ≠ b →
      fullScreen st b =
        ({ st with fullScreen := b }, [Event.fullscreenEmit b])) := by
  constructor
  · intro h
    simp [fullScreen, isFullScreen] at h ⊢
    simp [h]
  · intro h
    simp [isFullScreen] at h
    simp [fullScreen, h]

/-- Witness for C9 at a concrete state. -/
theorem fullScreen_frame_effect_witness :
    fullScreen (initState "") true =
      ({ initState "" with fullScreen := true }, [Event.fullscreenEmit true]) :=
  (fullScreen_frame_effect (initState "") true).2 (by decide)

/-- Editor states reachable through the text-mutation surface: the
constructor state followed by any sequence of `setText` calls (which
`insertText`, `insertPlaceholder` and the placeholder resolution handler all
delegate to) and externally driven `componentDidUpdate` value updates. -/
inductive Reachable (cfg : Config) : EditorState → Prop where
  | init (v : String) : Reachable cfg (initState v)
  | setTextStep {st : EditorState} (v : String) (ev : Bool)
      (sel : Option (Nat × Nat)) :
      Reachable cfg st → Reachable cfg (setText cfg st v ev sel).1
  | externalStep {st : EditorState} (v : String) :
      Reachable cfg st → Reachable cfg (applyExternalValue cfg st v)

/-- An externally driven update either keeps the text or stores a normalized
value. -/
theorem applyExternalValue_text (cfg : Config) (st : EditorState) (value : String) :
    (applyExternalValue cfg st value).text = st.text ∨
    (applyExternalValue cfg st value).text = normalizeText value := by
  by_cases h1 : value = st.text
  · simp [applyExternalValue, h1]
  · by_cases h2 : st.text = normalizeText value
    · simp [applyExternalValue, h1, h2]
    · simp [applyExternalValue, h1, h2, renderHTML_text]

/-- C4: in every state reachable after construction, `setText` calls and
externally driven text updates, the stored text contains no occurrence of the
line-separator sentinel, so `getMdValue()` never returns a string containing
it. -/
theorem text_no_sentinel_invariant (cfg : Config) (st : EditorState)
    (h : Reachable cfg st) : '↵' ∉ (getMdValue st).data := by
  induction h with
  | init v => exact noSentinel_normalizeText v
  | @setTextStep st' v ev sel _ ih =>
    by_cases he : st'.text = v
    · simpa only [getMdValue, setText_of_eq he] using ih
    · simpa only [getMdValue, setText_text_of_ne he] using
        noSentinel_normalizeText v
  | @externalStep st' v _ ih =>
    rcases applyExternalValue_text cfg st' v with hh | hh
    · simpa only [getMdValue, hh] using ih
    · simpa only [getMdValue, hh] using noSentinel_normalizeText v

/-- Witness for C4 at a concrete reachable state. -/
theorem text_no_sentinel_invariant_witness :
    '↵' ∉ (getMdValue
      (setText cfg0 (initState "a↵b") "p↵q" false none).1).data :=
  text_no_sentinel_invariant cfg0 _
    (Reachable.setTextStep "p↵q" false none (Reachable.init "a↵b"))

/-- C5 counterexample: the resolution handler does not perform a literal
first-occurrence replacement for every resolved replacement string.  With
current text `"uTOKv"`, token `"TOK"` and resolved value `"$&$&"`, the
literal replacement the claim describes is `"u$&$&v"`, but the handler calls
the JS builtin `replace`, whose `$&` escapes expand to the matched token, so
the text passed to `setText` is `"uTOKTOKv"`. -/
theorem placeholder_literal_replace_counterexample :
    literalReplaceFirst "uTOKv" "TOK" "$&$&" = "u$&$&v" ∧
    jsReplaceFirst "uTOKv" "TOK" "$&$&" = "uTOKTOKv" ∧
    resolvePlaceholder cfg0 (initState "uTOKv") "TOK" "$&$&" ≠
      setText cfg0 (initState "uTOKv")
        (literalReplaceFirst "uTOKv" "TOK" "$&$&") false none := by
  refine ⟨rfl, rfl, ?_⟩
  decide

/-- Replacement text without a `$` is spliced in verbatim. -/
theorem getSubstitution_no_dollar (matched before after : List Char) :
    ∀ (repl : List Char), '$' ∉ repl →
      getSubstitution matched before after repl = repl := by
  intro repl
  induction repl with
  | nil => intro _; rfl
  | cons c rest ih =>
    intro h
    simp only [List.mem_cons, not_or] at h
    have hc : c ≠ '$' := fun he => h.1 he.symm
    cases rest with
    | nil => rfl
    | cons c2 rest2 =>
      have htail : getSubstitution matched before after (c2 :: rest2) =
          c2 :: rest2 := ih (by simpa using h.2)
      simp [getSubstitution, hc, htail]

/-- On `$`-free replacement strings the JS builtin agrees with the spec's
literal replacement. -/
theorem jsReplaceFirst_of_no_dollar (s pat repl : String)
    (h : '$' ∉ repl.data) :
    jsReplaceFirst s pat repl = literalReplaceFirst s pat repl := by
  unfold jsReplaceFirst literalReplaceFirst
  rcases hidx : listIndexOfSub s.data pat.data with _ | i
  · rfl
  · simp [getSubstitution_no_dollar _ _ _ repl.data h]

/-- C5 amended: when the placeholder promise resolves with `str`, the handler
passes `getMdValue().replace(token, str)` to `setText`, where `replace` is
the JS builtin: the first occurrence of the token is replaced by `str` after
`$`-escape substitution; for resolved values containing no `$` this is
exactly the literal first-occurrence replacement the claim describes.  When
the token no longer occurs in the current text, the replace is the identity
and the handler — a total function, hence it never throws — leaves the state
unchanged and emits nothing. -/
theorem placeholder_resolution_tolerant_amended (cfg : Config)
    (st : EditorState) (ph str : String) :
    resolvePlaceholder cfg st ph str =
      setText cfg st (jsReplaceFirst st.text ph str) false none ∧
    ('$' ∉ str.data →
      jsReplaceFirst st.text ph str = literalReplaceFirst st.text ph str) ∧
    (listIndexOfSub st.text.data ph.data = none →
      resolvePlaceholder cfg st ph str = (st, [])) := by
  refine ⟨rfl, fun hd => jsReplaceFirst_of_no_dollar st.text ph str hd,
    fun h => ?_⟩
  have hid : jsReplaceFirst st.text ph str = st.text := by
    simp [jsReplaceFirst, h]
  simp only [resolvePlaceholder, getMdValue, hid]
  exact setText_of_eq rfl

/-- Witness for the amended C5 claim: resolving an edited-away placeholder is
a state-preserving no-op, and a `$`-free resolved value is spliced in
literally. -/
theorem placeholder_resolution_tolerant_amended_witness :
    resolvePlaceholder cfg0 (initState "hello") "XYZ" "![](img)" =
      (initState "hello", []) ∧
    jsReplaceFirst (initState "hello").text "XYZ" "![](img)" =
      literalReplaceFirst (initState "hello").text "XYZ" "![](img)" :=
  ⟨(placeholder_resolution_tolerant_amended cfg0 (initState "hello") "XYZ"
      "![](img)").2.2 (by decide),
    (placeholder_resolution_tolerant_amended cfg0 (initState "hello") "XYZ"
      "![](img)").2.1 (by decide)⟩

/-- C7: `Editor.use` with a component already in the static registry replaces
its first entry in place — same position, same length — and `Editor.use` with
a fresh component appends at the end. -/
theorem use_replace_or_append (ps : List Plugin) (comp config : Nat) :
    ((∀ p ∈ ps, p.comp ≠ comp) → use ps comp config = ps ++ [⟨comp, config⟩]) ∧
    (∀ l1 p l2, ps = l1 ++ p :: l2 → p.comp = comp →
      (∀ q ∈ l1, q.comp ≠ comp) →
      use ps comp config = l1 ++ ⟨comp, config⟩ :: l2 ∧
      (use ps comp config).length = ps.length) := by
  induction ps with
  | nil =>
    refine ⟨fun _ => rfl, ?_⟩
    intro l1 p l2 hsplit
    exact absurd hsplit (by simp)
  | cons a rest ih =>
    constructor
    · intro h
      have ha : a.comp ≠ comp := h a (List.mem_cons_self a rest)
      simp [use, ha, ih.1 (fun p hp => h p (List.mem_cons_of_mem a hp))]
    · intro l1 p l2 hsplit hp hq
      cases l1 with
      | nil =>
        simp only [List.nil_append, List.cons.injEq] at hsplit
        obtain ⟨rfl, rfl⟩ := hsplit
        simp [use, hp]
      | cons b l1' =>
        simp only [List.cons_append, List.cons.injEq] at hsplit
        obtain ⟨rfl, rfl⟩ := hsplit
        have hbc : a.comp ≠ comp := hq a (List.mem_cons_self a l1')
        have hres := ih.2 l1' p l2 rfl hp
          (fun q hqm => hq q (List.mem_cons_of_mem a hqm))
        simp [use, hbc, hres.1, hres.2]

/-- Witness for C7: replacing the second of two entries in place, and
appending a fresh identity. -/
theorem use_replace_or_append_witness :
    use [Plugin.mk 1 0, Plugin.mk 2 0] 2 7 =
      [Plugin.mk 1 0] ++ Plugin.mk 2 7 :: [] ∧
    (use [Plugin.mk 1 0, Plugin.mk 2 0] 2 7).length =
      [Plugin.mk 1 0, Plugin.mk 2 0].length :=
  (use_replace_or_append [Plugin.mk 1 0, Plugin.mk 2 0] 2 7).2
    [Plugin.mk 1 0] (Plugin.mk 2 0) [] rfl rfl (by decide)

/-- Members of the erased list were members of the original list. -/
theorem mem_eraseFirstListener {l : List Nat} {d a : Nat}
    (h : a ∈ eraseFirstListener l d) : a ∈ l := by
  induction l with
  | nil => simp [eraseFirstListener] at h
  | cons x rest ih =>
    by_cases hx : x = d
    · simp only [eraseFirstListener, if_pos hx] at h
      exact List.mem_cons_of_mem x h
    · simp only [eraseFirstListener, if_neg hx, List.mem_cons] at h
      rcases h with h | h
      · simp [h]
      · exact List.mem_cons_of_mem x (ih h)

/-- Removing the first occurrence preserves distinctness. -/
theorem nodup_eraseFirstListener {l : List Nat} (d : Nat) (h : l.Nodup) :
    (eraseFirstListener l d).Nodup := by
  induction l with
  | nil => simp [eraseFirstListener]
  | cons x rest ih =>
    rcases List.nodup_cons.mp h with ⟨hx, hrest⟩
    by_cases hxd : x = d
    · simpa only [eraseFirstListener, if_pos hxd] using hrest
    · simp only [eraseFirstListener, if_neg hxd, List.nodup_cons]
      exact ⟨fun hmem => hx (mem_eraseFirstListener hmem), ih hrest⟩

/-- Erasing the first occurrence drops the count of the erased element by
one. -/
theorem count_eraseFirstListener (l : List Nat) (d : Nat) :
    (eraseFirstListener l d).count d = l.count d - 1 := by
  induction l with
  | nil => simp [eraseFirstListener]
  | cons x rest ih =>
    by_cases hx : x = d
    · subst hx
      simp [eraseFirstListener, List.count_cons_self]
    · simp [eraseFirstListener, hx, List.count_cons, ih]

/-- C10: keyboard-listener registration keeps the listener list duplicate
free.  Starting from any duplicate-free listener list, `onKeyboard` and
`offKeyboard` preserve distinctness, re-registering the same listener is
absorbed (a repeat registration leaves the state unchanged, so the listener
stays a single entry), and one `offKeyboard` call removes that single
entry. -/
theorem keyboard_listeners_nodup (st : EditorState) (d : Nat)
    (h : st.keyboardListeners.Nodup) :
    ((onKeyboard st d).keyboardListeners).Nodup ∧
    ((offKeyboard st d).keyboardListeners).Nodup ∧
    onKeyboard (onKeyboard st d) d = onKeyboard st d ∧
    ((onKeyboard st d).keyboardListeners).count d = 1 ∧
    ((offKeyboard (onKeyboard st d) d).keyboardListeners).count d = 0 := by
  refine ⟨?_, ?_, ?_, ?_, ?_⟩
  · by_cases hd : d ∈ st.keyboardListeners
    · simpa [onKeyboard, hd] using h
    · simp [onKeyboard, hd, List.nodup_append, h]
  · simpa [offKeyboard] using nodup_eraseFirstListener d h
  · by_cases hd : d ∈ st.keyboardListeners
    · simp [onKeyboard, hd]
    · have hmem : d ∈ st.keyboardListeners ++ [d] := by simp
      simp [onKeyboard, hd, hmem]
  · by_cases hd : d ∈ st.keyboardListeners
    · simpa [onKeyboard, hd] using List.count_eq_one_of_mem h hd
    · simp [onKeyboard, hd, List.count_append,
        List.count_eq_zero_of_not_mem hd]
  · by_cases hd : d ∈ st.keyboardListeners
    · simp [onKeyboard, hd, offKeyboard, count_eraseFirstListener,
        List.count_eq_one_of_mem h hd]
    · simp [onKeyboard, hd, offKeyboard, count_eraseFirstListener,
        List.count_append, List.count_eq_zero_of_not_mem hd]

/-- C2 evaluated at its failing input.  The `nodeMdText` ref is created in the
constructor but its only attachment site — the `<textarea>` JSX — is commented
out of `render` (lines 846-863), so `nodeMdText.current` is `null` in every
reachable editor: `setSelection` is a silent no-op and `getSelection` always
returns the `initialSelection` fallback.  On an editor holding text `"ab"`,
after `setSelection({start: 1, end: 2})` the claim demands
`{start: 1, end: 2, text: "b"}`, but the code yields `{0, 0, ""}`. -/
theorem selection_roundtrip_code_bug :
    getSelection (setSelection (initState "ab") 1 2) = initialSelection ∧
    getSelection (setSelection (initState "ab") 1 2) ≠
      { start := 1, endPos := 2, text := "b" } := by
  exact ⟨rfl, by decide⟩

/-- A configuration with scroll sync enabled in both directions. -/
def cfgSync : Config :=
  { onChangeTrigger := OnChangeTrigger.both
    hasOnChange := false
    renderHTML := none
    syncScrollMode := [SyncMode.rightFollowLeft, SyncMode.leftFollowRight] }

/-- The mounted CodeMirror edit pane at C3's failing input: scrolled to offset
50, scrollable height 200. -/
def edScroll : CMEditor :=
  { scrollTop := 50, scrollHeight := 200, cursorDivAttached := true }

/-- The mounted preview pane at C3's failing input: scrollable height 100,
offset 0. -/
def pvScroll : PreviewPane :=
  { scrollHeight := 100, scrollTop := 0 }

/-- C3's failing input: an editor after mount (content changed since the last
ratio computation, sync enabled for the edit-to-preview direction) with edit
pane height `H1 = 200`, preview height `H2 = 100`, edit offset `O = 50`.  The
`nodeMdText` ref is unattached, as in every reachable state. -/
def stScroll : EditorState :=
  { initState "hello" with
      nodeEditor := some edScroll
      nodeMdPreviewWrapper := some pvScroll }

/-- C3 evaluated at the failing input.  The ratio recomputation (lines
268-272) is guarded by `this.nodeMdText.current`, a ref whose attachment site
is commented out, so the scale is never recomputed: after the scroll event
and its animation frame the scale is still `1` (not `H1/H2 = 2`), the dirty
flag is still set, and the preview offset becomes `O/1 = 50` instead of the
claimed `O/(H1/H2) = 25`.  The no-feedback half of the claim does hold: the
scroll event the programmatic write produces on the preview pane is ignored
because the active source is still the edit pane. -/
theorem scroll_sync_ratio_code_bug :
    (runFrame (handleSyncScroll cfgSync stScroll Pane.md).1).scrollScale = 1 ∧
    (runFrame (handleSyncScroll cfgSync stScroll Pane.md).1).hasContentChanged = true ∧
    (runFrame (handleSyncScroll cfgSync stScroll Pane.md).1).nodeMdPreviewWrapper =
      some ({ scrollHeight := 100, scrollTop := 50 }) ∧
    (50 : ℚ) / ((200 : ℚ) / (100 : ℚ)) = 25 ∧
    ((50 : ℚ) / ((200 : ℚ) / (100 : ℚ))) ≠ 50 ∧
    handleSyncScroll cfgSync
        (runFrame (handleSyncScroll cfgSync stScroll Pane.md).1) Pane.html =
      (runFrame (handleSyncScroll cfgSync stScroll Pane.md).1, []) := by
  have h1 : (handleSyncScroll cfgSync stScroll Pane.md).1 =
      { stScroll with
          isSyncingScroll := true
          pendingFrames := [Pane.md] } := by
    decide
  rw [h1]
  have hs : (runFrame ({ stScroll with
      isSyncingScroll := true
      pendingFrames := [Pane.md] })).shouldSyncScroll = Pane.md := rfl
  refine ⟨rfl, rfl, ?_, by norm_num, by norm_num, by simp [handleSyncScroll, hs]⟩
  simp [runFrame, stScroll, edScroll, pvScroll, initState]

/-- The re-entrancy invariant of the scroll synchronizer: when the syncing
flag is down no callback is pending, and never more than one callback is
pending. -/
def SyncInv (st : EditorState) : Prop :=
  (st.isSyncingScroll = false → st.pendingFrames = []) ∧
  st.pendingFrames.length ≤ 1

/-- The scale recomputation touches neither the syncing flag nor the pending
queue. -/
theorem recomputeScale_isSyncingScroll (st : EditorState) :
    (recomputeScale st).isSyncingScroll = st.isSyncingScroll := by
  cases hc : st.hasContentChanged <;> cases ht : st.nodeMdText <;>
    cases hp : st.nodeMdPreviewWrapper <;> simp [recomputeScale, hc, ht, hp]

/-- The scale recomputation leaves the pending callback queue unchanged. -/
theorem recomputeScale_pendingFrames (st : EditorState) :
    (recomputeScale st).pendingFrames = st.pendingFrames := by
  cases hc : st.hasContentChanged <;> cases ht : st.nodeMdText <;>
    cases hp : st.nodeMdPreviewWrapper <;> simp [recomputeScale, hc, ht, hp]

/-- One scroll event preserves the re-entrancy invariant. -/
theorem handleSyncScroll_syncInv (cfg : Config) (st : EditorState) (p : Pane)
    (h : SyncInv st) : SyncInv (handleSyncScroll cfg st p).1 := by
  by_cases h1 : p ≠ st.shouldSyncScroll
  · simpa [handleSyncScroll, h1] using h
  · by_cases h2 : syncDirection p ∉ cfg.syncScrollMode
    · simpa [handleSyncScroll, h1, h2] using h
    · by_cases h3 : (recomputeScale st).isSyncingScroll = true
      · refine ⟨fun hf => ?_, ?_⟩
        · rw [show (handleSyncScroll cfg st p).1 = recomputeScale st by
            simp [handleSyncScroll, h1, h2, h3]] at hf
          rw [h3] at hf
          cases hf
        · rw [show (handleSyncScroll cfg st p).1 = recomputeScale st by
            simp [handleSyncScroll, h1, h2, h3]]
          rw [recomputeScale_pendingFrames]
          exact h.2
      · have h3' : (recomputeScale st).isSyncingScroll = false := by
          simp only [Bool.not_eq_true] at h3
          exact h3
        have hflag : st.isSyncingScroll = false := by
          rw [← recomputeScale_isSyncingScroll st]
          exact h3'
        have hempty : st.pendingFrames = [] := h.1 hflag
        have hres : (handleSyncScroll cfg st p).1 =
            { recomputeScale st with
                isSyncingScroll := true
                pendingFrames := (recomputeScale st).pendingFrames ++ [p] } := by
          simp [handleSyncScroll, h1, h2, h3]
        rw [hres]
        refine ⟨fun hf => by simp at hf, ?_⟩
        simp [recomputeScale_pendingFrames, hempty]

/-- Any burst of scroll events preserves the re-entrancy invariant. -/
theorem foldl_handleSyncScroll_syncInv (cfg : Config) :
    ∀ (events : List Pane) (st : EditorState), SyncInv st →
      SyncInv (events.foldl (fun s p => (handleSyncScroll cfg s p).1) st) := by
  intro events
  induction events with
  | nil => intro st h; simpa using h
  | cons e rest ih =>
    intro st h
    simp only [List.foldl_cons]
    exact ih _ (handleSyncScroll_syncInv cfg st e h)

/-- A scroll event arriving while the syncing flag is up schedules nothing
and leaves the flag up. -/
theorem handleSyncScroll_while_syncing (cfg : Config) (st : EditorState)
    (p : Pane) (h : st.isSyncingScroll = true) :
    (handleSyncScroll cfg st p).1.pendingFrames = st.pendingFrames ∧
    (handleSyncScroll cfg st p).1.isSyncingScroll = true := by
  by_cases h1 : p ≠ st.shouldSyncScroll
  · simp [handleSyncScroll, h1, h]
  · by_cases h2 : syncDirection p ∉ cfg.syncScrollMode
    · simp [handleSyncScroll, h1, h2, h]
    · have h3 : (recomputeScale st).isSyncingScroll = true := by
        rw [recomputeScale_isSyncingScroll]; exact h
      constructor
      · rw [show (handleSyncScroll cfg st p).1 = recomputeScale st by
          simp [handleSyncScroll, h1, h2, h3]]
        exact recomputeScale_pendingFrames st
      · rw [show (handleSyncScroll cfg st p).1 = recomputeScale st by
          simp [handleSyncScroll, h1, h2, h3]]
        exact h3

/-- The animation-frame callback performs its single corrective write and
then clears the syncing flag, consuming the pending entry. -/
theorem runFrame_clears (st : EditorState) (h : st.pendingFrames ≠ []) :
    (runFrame st).isSyncingScroll = false ∧
    (runFrame st).pendingFrames = st.pendingFrames.tail := by
  rcases hp : st.pendingFrames with _ | ⟨t, rest⟩
  · exact absurd hp h
  · simp [runFrame, hp]

/-- C8: from a quiescent synchronizer (flag down, nothing pending), any
sequence of scroll events processed before the animation-frame callback runs
schedules at most one corrective write; while the syncing flag is up no
further callback is scheduled and the flag stays up; and the flag comes down
only inside the callback, which consumes the single pending write. -/
theorem scroll_write_coalescing (cfg : Config) (st : EditorState)
    (events : List Pane) (_h1 : st.isSyncingScroll = false)
    (h2 : st.pendingFrames = []) :
    ((events.foldl (fun s p => (handleSyncScroll cfg s p).1) st).pendingFrames).length ≤ 1 ∧
    (∀ st' p, st'.isSyncingScroll = true →
      (handleSyncScroll cfg st' p).1.pendingFrames = st'.pendingFrames ∧
      (handleSyncScroll cfg st' p).1.isSyncingScroll = true) ∧
    (∀ st', st'.pendingFrames ≠ [] →
      (runFrame st').isSyncingScroll = false ∧
      (runFrame st').pendingFrames = st'.pendingFrames.tail) := by
  refine ⟨?_, handleSyncScroll_while_syncing cfg, fun st' => runFrame_clears st'⟩
  exact (foldl_handleSyncScroll_syncInv cfg events st ⟨fun _ => h2, by simp [h2]⟩).2

/-- Witness for C8: three edit-pane scroll events in one frame schedule at
most one corrective write. -/
theorem scroll_write_coalescing_witness :
    (([Pane.md, Pane.md, Pane.md].foldl
      (fun s p => (handleSyncScroll cfgSync s p).1) (initState "")).pendingFrames).length ≤ 1 :=
  (scroll_write_coalescing cfgSync (initState "") [Pane.md, Pane.md, Pane.md]
    rfl rfl).1

/-- Witness for C10 at a concrete listener list. -/
theorem keyboard_listeners_nodup_witness :
    ((onKeyboard ({ initState "" with keyboardListeners := [1, 2] }) 5).keyboardListeners).Nodup ∧
    ((offKeyboard ({ initState "" with keyboardListeners := [1, 2] }) 5).keyboardListeners).Nodup ∧
    onKeyboard (onKeyboard ({ initState "" with keyboardListeners := [1, 2] }) 5) 5 =
      onKeyboard ({ initState "" with keyboardListeners := [1, 2] }) 5 ∧
    ((onKeyboard ({ initState "" with keyboardListeners := [1, 2] }) 5).keyboardListeners).count 5 = 1 ∧
    ((offKeyboard (onKeyboard ({ initState "" with keyboardListeners := [1, 2] }) 5) 5).keyboardListeners).count 5 = 0 :=
  keyboard_listeners_nodup ({ initState "" with keyboardListeners := [1, 2] }) 5
    (by decide)

end MdEditorLite
